import Mathlib

/-!
Verification of the spyderGPT ingestion pipeline: a shallow embedding of the
document loader, the chunk splitter, the worker base class's ingest state
machine, the store-existence check, the download helpers, the operation
dispatcher and the configuration merge, together with theorems settling the
frozen claims about them.

Texts are modelled as lists of characters, file paths and metadata sources as
strings.  Stateful Python code (the class-level lists of DocumentLoader, the
vector store) is embedded as explicit state passing.
-/

/-- A parsed unit of content: langchain Document with metadata source and
page content (src/spydergpt/loader.py, produced per file by the loaders of
Constants.LOADER_MAPPING). -/
structure Document where
  source : String
  text : List Char
deriving DecidableEq, Repr

/-- A file on disk (or staged in the scratch directory): its path and raw
content. -/
structure FileEntry where
  path : String
  content : List Char
deriving DecidableEq, Repr

/-- settings.textsplitter of the YAML configuration: chunk size and chunk
overlap handed to the text splitter (loader.py, DocumentLoader.process). -/
structure TextSplitterSettings where
  size : Nat
  overlap : Nat
deriving DecidableEq, Repr

/-- The slice of the munchified settings the loader consumes. -/
structure Settings where
  textsplitter : TextSplitterSettings
deriving DecidableEq, Repr

/-- Modelled from the spec: the text splitter used by DocumentLoader.process
is langchain's RecursiveCharacterTextSplitter, whose code is not part of this
repository.  Following the spec's description (section 4.1 and the section 8
scenario), the splitter is modelled as the greedy fixed-stride splitter: the
first chunk is the first `size` characters and every later chunk starts
`size - overlap` characters after its predecessor, so each chunk after the
first repeats the previous chunk's last `overlap` characters.  `fuel` bounds
the recursion by the length of the text. -/
def splitChunksAux (size overlap : Nat) : Nat → List Char → List (List Char)
  | 0, s => [s]
  | fuel + 1, s =>
    if s.length ≤ size then [s]
    else if size - overlap = 0 then [s]
    else s.take size :: splitChunksAux size overlap fuel (s.drop (size - overlap))

/-- Split one text into overlapping chunks (see splitChunksAux). -/
def splitChunks (size overlap : Nat) (s : List Char) : List (List Char) :=
  splitChunksAux size overlap s.length s

/-- split_documents: split every document's text, each chunk keeping its
parent document's metadata (loader.py, DocumentLoader.process). -/
def splitDocuments (size overlap : Nat) (docs : List Document) : List Document :=
  docs.flatMap fun d => (splitChunks size overlap d.text).map fun t => ⟨d.source, t⟩

/-- Reassemble a chunk sequence: keep the first chunk whole and drop the
overlapping prefix of every later chunk, then concatenate. -/
def reassemble (overlap : Nat) : List (List Char) → List Char
  | [] => []
  | c :: rest => c ++ ((rest.map (List.drop overlap)).flatten)

/-- Helper used to reason about reassemble: drop the overlap prefix of every
chunk (the first included) and concatenate. -/
def joinDrops (overlap : Nat) (l : List (List Char)) : List Char :=
  (l.map (List.drop overlap)).flatten

/-- The class attributes of DocumentLoader (loader.py lines 20 and 21):
`documents` and `processed_texts` are initialised once at class creation and
shared by every instance.  `load` mutates `documents` in place through
`self.documents.append`; nothing in the repository ever assigns
`self.documents`, so the attribute always resolves to this class state. -/
structure LoaderClass where
  documents : List Document
  processed_texts : List Document
deriving DecidableEq, Repr

/-- The per-instance state of DocumentLoader: `__init__` stores ignored_files
and settings on the instance; `process` assigns `self.processed_texts`,
creating an instance attribute that shadows the class attribute, recorded
here as an Option. -/
structure LoaderInstance where
  ignored_files : List String
  settings : Settings
  processed_texts_inst : Option (List Document)
deriving DecidableEq, Repr

/-- DocumentLoader.__init__: stores ignored_files and settings; the instance
holds no shadowing processed_texts attribute yet. -/
def DocumentLoader.init (ignored : List String) (settings : Settings) : LoaderInstance :=
  ⟨ignored, settings, none⟩

/-- Python attribute lookup for `loader.processed_texts`: the instance
attribute when `process` has assigned one, the class attribute otherwise. -/
def LoaderInstance.processedTexts (cls : LoaderClass) (inst : LoaderInstance) : List Document :=
  inst.processed_texts_inst.getD cls.processed_texts

/-- Python attribute lookup for `loader.documents`: no code in the repository
assigns `self.documents`, so the lookup always reaches the class attribute. -/
def LoaderInstance.documentsView (cls : LoaderClass) (_inst : LoaderInstance) : List Document :=
  cls.documents

/-- The file extensions of Constants.LOADER_MAPPING (config.py). -/
def LOADER_EXTENSIONS : List String :=
  [".csv", ".doc", ".docx", ".eml", ".pdf", ".ppt", ".pptx", ".txt"]

/-- Whether a glob pattern `**/*{ext}` matches a path: the path ends with the
extension. -/
def globMatches (ext : String) (path : String) : Bool :=
  ext.toList.isSuffixOf path.toList

/-- Discovery in DocumentLoader.load (loader.py lines 45 to 48): for every
supported extension, the recursive glob collects the files of the source
directory matching it; `files` stands for the directory's contents. -/
def discoverFiles (files : List FileEntry) : List FileEntry :=
  LOADER_EXTENSIONS.flatMap fun ext => files.filter fun f => globMatches ext f.path

/-- Parsing one staged file: the mapped loader produces a Document whose
metadata source is the file path and whose page content is the file's text
(loader.py, _load_single_document with TextLoader and friends). -/
def toDoc (f : FileEntry) : Document :=
  ⟨f.path, f.content⟩

/-- DocumentLoader.load (loader.py lines 42 to 69): discover files by
extension, keep those whose path is not in ignored_files, parse each and
append the results to the class-level `documents` list. -/
def DocumentLoader.load (cls : LoaderClass) (inst : LoaderInstance)
    (files : List FileEntry) : LoaderClass :=
  let all_files := discoverFiles files
  let filtered_files := all_files.filter fun f => !inst.ignored_files.contains f.path
  { cls with documents := cls.documents ++ filtered_files.map toDoc }

/-- The error outcomes a gather can raise: NoNewDocumentsLoadedError (caught
by WorkerBase.ingest) and FileNotFoundError (LocalWorker._gather, fatal). -/
inductive GErr where
  | noNewDocs
  | fileNotFound
deriving DecidableEq, Repr

/-- DocumentLoader.process (loader.py lines 71 to 88): raise
NoNewDocumentsLoadedError when `documents` is empty, otherwise split the
loaded documents and assign the chunks to `self.processed_texts` (an instance
attribute; the class attribute is left untouched). -/
def DocumentLoader.process (cls : LoaderClass) (inst : LoaderInstance) :
    Except GErr LoaderInstance :=
  if cls.documents.isEmpty then .error .noNewDocs
  else
    .ok { inst with
          processed_texts_inst :=
            some (splitDocuments inst.settings.textsplitter.size
              inst.settings.textsplitter.overlap cls.documents) }

/-- LocalWorker._gather (localworker.py lines 30 to 74): raise
FileNotFoundError when the configured source directory is absent; build the
exclusion set from the collection's metadata sources (empty without a
collection); construct a DocumentLoader, load, process, and return the
processed chunks, raising NoNewDocumentsLoadedError when there are none.
The updated class-level loader state is returned alongside the outcome. -/
def LocalWorker.gather (settings : Settings) (sourceExists : Bool)
    (dir : List FileEntry) (collection : Option (List String))
    (cls : LoaderClass) : LoaderClass × Except GErr (List Document) :=
  if sourceExists then
    let ignored_files := collection.getD []
    let inst := DocumentLoader.init ignored_files settings
    let cls' := DocumentLoader.load cls inst dir
    match DocumentLoader.process cls' inst with
    | .error e => (cls', .error e)
    | .ok inst' =>
      let texts := inst'.processedTexts cls'
      if texts.isEmpty then (cls', .error .noNewDocs) else (cls', .ok texts)
  else (cls, .error .fileNotFound)

/-- One call the coordinator makes against the vector store during a run
(workerbase.py, WorkerBase.ingest and _get_vectorstore). -/
inductive StoreOp where
  | openExisting
  | getMetadata
  | addDocuments (texts : List Document)
  | createFrom (texts : List Document)
  | persist
deriving DecidableEq, Repr

/-- Whether a store operation writes new content into the store. -/
def StoreOp.writesContent : StoreOp → Bool
  | .addDocuments _ => true
  | .createFrom _ => true
  | _ => false

/-- The observable outcome of one WorkerBase.ingest run: the returned
boolean, the loader class state afterwards, the store contents afterwards
(none when no store was created), the exclusion set handed to the gather, and
the sequence of store calls made. -/
structure RunResult where
  returned : Bool
  cls : LoaderClass
  storeAfter : Option (List Document)
  exclusion : List String
  ops : List StoreOp
deriving DecidableEq, Repr

/-- WorkerBase.ingest (workerbase.py lines 122 to 149): when the vectorstore
exists, open it, fetch its collection, gather with the collection's metadata
and append the gathered chunks; otherwise gather with no collection and
create the store from the chunks.  NoNewDocumentsLoadedError from the gather
is caught and the run returns False; any other error propagates.  On success
persist is called once at the end and the run returns True.  `storeExists`
stands for _does_vectorstore_exist() and `diskRecords` for the documents the
persisted store already holds. -/
def WorkerBase.ingest
    (gather : Option (List String) → LoaderClass → LoaderClass × Except GErr (List Document))
    (cls : LoaderClass) (storeExists : Bool) (diskRecords : List Document) :
    Except GErr RunResult :=
  if storeExists then
    let collection := diskRecords.map Document.source
    match gather (some collection) cls with
    | (cls', .error .noNewDocs) =>
      .ok ⟨false, cls', some diskRecords, collection, [.openExisting, .getMetadata]⟩
    | (_, .error .fileNotFound) => .error .fileNotFound
    | (cls', .ok texts) =>
      .ok ⟨true, cls', some (diskRecords ++ texts), collection,
        [.openExisting, .getMetadata, .addDocuments texts, .persist]⟩
  else
    match gather none cls with
    | (cls', .error .noNewDocs) => .ok ⟨false, cls', none, [], []⟩
    | (_, .error .fileNotFound) => .error .fileNotFound
    | (cls', .ok texts) =>
      .ok ⟨true, cls', some texts, [], [.createFrom texts, .persist]⟩

/-- The chroma settings the store-existence check reads (config.py,
ChromaSettings): the persistence directory, the index directory name, the two
parquet file names, and the two glob patterns of index artifacts. -/
structure ChromaConfig where
  persist_directory : String
  index : String
  collections : String
  embeddings : String
  bin : String
  pickle : String
deriving DecidableEq, Repr

/-- The slice of the filesystem the store-existence check consults. -/
structure FileSystem where
  isDir : String → Bool
  isFile : String → Bool
  glob : String → String → List String

/-- Path join, `persist_path / name`. -/
def joinPath (a b : String) : String := a ++ "/" ++ b

/-- get_files (utils.py lines 37 to 55): for every extension pattern, extend
the result with the files of the directory matching it. -/
def get_files (fs : FileSystem) (dir : String) (patterns : List String) : List String :=
  patterns.flatMap fun p => fs.glob dir p

/-- WorkerBase._does_vectorstore_exist (workerbase.py lines 83 to 109): the
index path is a directory, the collections parquet and the embeddings parquet
are files, and at least three index artifact files match the bin and pickle
patterns. -/
def does_vectorstore_exist (fs : FileSystem) (cfg : ChromaConfig) : Bool :=
  let index_path := joinPath cfg.persist_directory cfg.index
  let collections_path := joinPath cfg.persist_directory cfg.collections
  let embeddings_path := joinPath cfg.persist_directory cfg.embeddings
  let list_index_files := get_files fs index_path [cfg.bin, cfg.pickle]
  fs.isDir index_path && fs.isFile collections_path && fs.isFile embeddings_path
    && decide (3 ≤ list_index_files.length)

/-- WorkerBase.ingest with the store-existence decision taken by
_does_vectorstore_exist against the filesystem. -/
def WorkerBase.run (fs : FileSystem) (cfg : ChromaConfig)
    (gather : Option (List String) → LoaderClass → LoaderClass × Except GErr (List Document))
    (cls : LoaderClass) (diskRecords : List Document) : Except GErr RunResult :=
  WorkerBase.ingest gather cls (does_vectorstore_exist fs cfg) diskRecords

/-- The outcome of one HTTP GET issued by a download task: a transport error
(a raised requests.exceptions.RequestException) or a response with its status
code and body. -/
inductive FetchResult where
  | transportError (msg : String)
  | response (status : Nat) (body : List Char)
deriving DecidableEq, Repr

/-- `r.ok` of the requests library: the status code is below 400. -/
def responseOk (status : Nat) : Bool := status < 400

/-- _download_single_file (webworker.py lines 89 to 120 and urlworker.py
lines 40 to 66): a transport error raises ValueError; a response with
`r.ok` writes the body to the destination file; any other response prints
the failure message and writes nothing.  The destination file name (title
plus guessed extension for the crawl variant, the URL path tail for the
direct variant) is computed by the caller and passed in. -/
def downloadSingleFile (fetch : FetchResult) (filePath : String) :
    Except String (Option FileEntry) :=
  match fetch with
  | .transportError e => .error ("Error loading URL: " ++ e)
  | .response status body =>
    if responseOk status then .ok (some ⟨filePath, body⟩)
    else .ok none

/-- Awaiting the submitted futures in order (_download of both workers,
`for future in futures: future.result()`): the first raised exception
propagates; otherwise the files the successful tasks wrote are collected. -/
def awaitAll : List (Except String (Option FileEntry)) → Except String (List FileEntry)
  | [] => .ok []
  | .error e :: _ => .error e
  | .ok f :: rest =>
    match awaitAll rest with
    | .error e => .error e
    | .ok l =>
      .ok (match f with
           | some file => file :: l
           | none => l)

/-- _download (webworker.py lines 122 to 144, urlworker.py lines 68 to 89):
submit one download task per (fetch outcome, destination name) pair and await
them all. -/
def downloadAll (tasks : List (FetchResult × String)) : Except String (List FileEntry) :=
  awaitAll (tasks.map fun t => downloadSingleFile t.1 t.2)

/-- The files a list of download tasks stages: the bodies of the responses
with `r.ok`, under the task's destination name. -/
def stagedFiles (tasks : List (FetchResult × String)) : List FileEntry :=
  tasks.filterMap fun t =>
    match t.1 with
    | .response status body => if responseOk status then some ⟨t.2, body⟩ else none
    | .transportError _ => none

/-- Whether a fetch outcome is a transport error. -/
def FetchResult.isTransportError : FetchResult → Bool
  | .transportError _ => true
  | .response _ _ => false

/-- process_from_local (processor.py lines 6 to 17): the LocalWorker's ingest
outcome rendered as the user-facing message. -/
def process_from_local (ingestResult : Bool) : String :=
  if ingestResult then "Files imported successfully"
  else "No files were imported locally"

/-- process_from_web (processor.py lines 20 to 31). -/
def process_from_web (ingestResult : Bool) : String :=
  if ingestResult then "Automated download and import was successful"
  else "No files were imported from the web"

/-- url_direct_download (processor.py lines 34 to 45): success starts true;
one UrlWorker is constructed and ingested per link, and-ing every outcome
into success; the message reports overall success or failure.  `outcomes`
is the list of per-link ingest results, one per configured link. -/
def url_direct_download (outcomes : List Bool) : String :=
  if outcomes.foldl (fun success r => success && r) true then
    "Automated download and import was successful"
  else "A file was not imported from an URL"

/-- OperationsEnum (enum/operationsenum.py): the three operation kinds. -/
inductive OperationsEnum where
  | WEB
  | LOCAL
  | URL
deriving DecidableEq, Repr

/-- The enum constructor OperationsEnum(value): the member with the given
value, none when the value raises ValueError. -/
def OperationsEnum.ofString (s : String) : Option OperationsEnum :=
  if s = "web" then some .WEB
  else if s = "local" then some .LOCAL
  else if s = "url" then some .URL
  else none

/-- MetaEnum.__contains__ (enum/metaEnum.py lines 11 to 25): try the enum
constructor on the item; a ValueError means false, otherwise true. -/
def MetaEnum.contains (s : String) : Bool :=
  (OperationsEnum.ofString s).isSome

/-- The dispatcher errors: InvalidOperationKeyError
(exception/InvalidOperationKeyError.py), raised by perform_operation for an
unrecognized operation key. -/
inductive DispatchErr where
  | invalidOperationKey
deriving DecidableEq, Repr

/-- The operations dictionary of Operation.__init__ (operator.py lines 9 to
19), with each coordinator's ingest outcome supplied as data: the web and
local workers each report one boolean, the url operation one boolean per
configured link. -/
def Operation.operations (webOk localOk : Bool) (urlOutcomes : List Bool) :
    OperationsEnum → String
  | .WEB => process_from_web webOk
  | .LOCAL => process_from_local localOk
  | .URL => url_direct_download urlOutcomes

/-- Operation.perform_operation (operator.py lines 21 to 41): when the key is
a member of OperationsEnum, invoke the mapped operation; otherwise raise
InvalidOperationKeyError. -/
def Operation.perform_operation (webOk localOk : Bool) (urlOutcomes : List Bool)
    (operation_key : String) : Except DispatchErr String :=
  if MetaEnum.contains operation_key then
    match OperationsEnum.ofString operation_key with
    | some k => .ok (Operation.operations webOk localOk urlOutcomes k)
    | none => .error .invalidOperationKey
  else
    .error .invalidOperationKey

/-- A YAML-like configuration value: a scalar, a mapping or a sequence
(the shapes yaml.safe_load produces for the configuration files). -/
inductive Value where
  | scalar (s : String)
  | dict (entries : List (String × Value))
  | arr (elems : List Value)

/-- Mapping lookup: the first entry with the given key. -/
def lookupEntry (k : String) (l : List (String × Value)) : Option Value :=
  (l.find? fun e => e.1 == k).map Prod.snd

mutual
/-- deepmerge's always_merger strategy, used by merge (utils.py lines 15 to
34): two mappings merge key by key, two sequences concatenate, and any other
conflict is resolved in favour of the second value. -/
def mergeValue : Value → Value → Value
  | .dict a, .dict b =>
    .dict (mergeEntries a b ++ (b.filter fun e => (lookupEntry e.1 a).isNone))
  | .arr a, .arr b => .arr (a ++ b)
  | _, b => b
termination_by v w => sizeOf v + sizeOf w
decreasing_by
  simp_wf
  omega

/-- The entries of the first mapping after merging the second into it: an
entry whose key also appears in the second mapping gets the recursively
merged value, the others keep theirs.  New keys of the second mapping are
appended afterwards by mergeValue. -/
def mergeEntries : List (String × Value) → List (String × Value) → List (String × Value)
  | [], _ => []
  | (k, v) :: rest, b =>
    (k, match h : lookupEntry k b with
        | some w => mergeValue v w
        | none => v) :: mergeEntries rest b
termination_by a b => sizeOf a + sizeOf b
decreasing_by
  · simp_wf
    obtain ⟨e, hfind, he⟩ := Option.map_eq_some'.mp h
    have hmem := List.mem_of_find?_eq_some hfind
    have hlt : sizeOf e < sizeOf b := List.sizeOf_lt_of_mem hmem
    obtain ⟨k', w'⟩ := e
    simp at he
    subst he
    simp at hlt ⊢
    omega
  · simp_wf
end

/-- The fresh empty dict `c = {}` merge starts from (utils.py line 31). -/
def emptyDict : Value := .dict []

/-- merge (utils.py lines 15 to 34): merge a into a fresh empty dictionary,
then merge b into the result. -/
def merge (a b : Value) : Value := mergeValue (mergeValue emptyDict a) b

/-- Concrete inputs used by the closed theorems: the splitter settings
size 5, overlap 1. -/
def demoSettings : Settings := ⟨⟨5, 1⟩⟩

/-- A source directory holding one six-character text file. -/
def demoDir : List FileEntry := [⟨"a.txt", "hello!".toList⟩]

/-- The LocalWorker gather over demoDir with demoSettings. -/
def demoGather (collection : Option (List String)) (cls : LoaderClass) :
    LoaderClass × Except GErr (List Document) :=
  LocalWorker.gather demoSettings true demoDir collection cls

/-- First ingestion run: fresh process (empty DocumentLoader class state),
no store on disk. -/
def run1demo : Except GErr RunResult :=
  WorkerBase.ingest demoGather ⟨[], []⟩ false []

/-- The DocumentLoader class state the first run leaves behind. -/
def cls1demo : LoaderClass :=
  match run1demo with
  | .ok r => r.cls
  | .error _ => ⟨[], []⟩

/-- The store contents the first run persists. -/
def store1demo : List Document :=
  match run1demo with
  | .ok r => r.storeAfter.getD []
  | .error _ => []

/-- Second ingestion run in the same process: the store now exists with the
first run's chunks, and the DocumentLoader class state is the one the first
run left behind. -/
def run2demo : Except GErr RunResult :=
  WorkerBase.ingest demoGather cls1demo true store1demo

/-- A first DocumentLoader instance with no exclusions. -/
def inst1demo : LoaderInstance := DocumentLoader.init [] demoSettings

/-- The class state after the first instance loads demoDir. -/
def clsLoadedDemo : LoaderClass := DocumentLoader.load ⟨[], []⟩ inst1demo demoDir

/-- The first instance after process assigned its chunks. -/
def inst1demoAfter : LoaderInstance :=
  match DocumentLoader.process clsLoadedDemo inst1demo with
  | .ok i => i
  | .error _ => inst1demo

/-- A second, freshly constructed DocumentLoader instance. -/
def inst2demo : LoaderInstance := DocumentLoader.init [] demoSettings

/-- A directory holding a.txt and b.txt, for the dedup-boundary scenario. -/
def demoDirAB : List FileEntry :=
  [⟨"a.txt", "hello!".toList⟩, ⟨"b.txt", "world".toList⟩]

/-- Three download tasks whose first fetch hits a transport error. -/
def demoTasksErr : List (FetchResult × String) :=
  [(.transportError "connection refused", "f1.txt"),
   (.response 200 "aa".toList, "f2.txt"),
   (.response 200 "bb".toList, "f3.txt")]

/-- Three download tasks whose middle fetch returns HTTP 500. -/
def demoTasks500 : List (FetchResult × String) :=
  [(.response 200 "aa".toList, "f1.txt"),
   (.response 500 "server error".toList, "f2.txt"),
   (.response 200 "bb".toList, "f3.txt")]

/-- A filesystem with nothing on it. -/
def demoFs : FileSystem := ⟨fun _ => false, fun _ => false, fun _ _ => []⟩

/-- A chroma configuration for the store-existence check. -/
def demoCfg : ChromaConfig :=
  ⟨"db", "index", "chroma-collections.parquet", "chroma-embeddings.parquet",
   "*.bin", "*.pkl"⟩

/-- Every chunk splitChunksAux produces has length at most `size`, as long as
the fuel dominates the text length. -/
theorem splitChunksAux_length_le (size overlap : Nat) (hov : overlap < size) :
    ∀ (fuel : Nat) (s : List Char), s.length ≤ fuel →
      ∀ c ∈ splitChunksAux size overlap fuel s, c.length ≤ size := by
  intro fuel
  induction fuel with
  | zero =>
    intro s hs c hc
    simp only [splitChunksAux, List.mem_singleton] at hc
    subst hc
    omega
  | succ n ih =>
    intro s hs c hc
    rw [splitChunksAux] at hc
    split at hc
    · simp only [List.mem_singleton] at hc
      subst hc
      omega
    · split at hc
      · omega
      · simp only [List.mem_cons] at hc
        rcases hc with hc | hc
        · subst hc
          simp [List.length_take]
        · refine ih (s.drop (size - overlap)) ?_ c hc
          simp only [List.length_drop]
          omega

/-- Dropping the overlap prefix of every chunk (the first included) and
concatenating yields the text with its first `overlap` characters removed. -/
theorem joinDrops_splitChunksAux (size overlap : Nat) (hov : overlap < size) :
    ∀ (fuel : Nat) (s : List Char), s.length ≤ fuel →
      joinDrops overlap (splitChunksAux size overlap fuel s) = s.drop overlap := by
  intro fuel
  induction fuel with
  | zero =>
    intro s hs
    simp [splitChunksAux, joinDrops]
  | succ n ih =>
    intro s hs
    rw [splitChunksAux]
    split
    · simp [joinDrops]
    · split
      · omega
      · rename_i hlen hstep
        have hrec : joinDrops overlap
            (splitChunksAux size overlap n (s.drop (size - overlap))) =
            (s.drop (size - overlap)).drop overlap := by
          refine ih (s.drop (size - overlap)) ?_
          simp only [List.length_drop]
          omega
        simp only [joinDrops, List.map_cons, List.flatten_cons] at hrec ⊢
        rw [hrec, List.drop_drop]
        have h1 : size - overlap + overlap = size := by omega
        rw [h1]
        have h2 : (s.take size).drop overlap = (s.drop overlap).take (size - overlap) := by
          rw [List.take_drop]
          have : overlap + (size - overlap) = size := by omega
          rw [this]
        rw [h2]
        have h3 := List.drop_take_append_drop' s overlap (size - overlap)
        rw [h1] at h3
        exact h3

/-- Reassembling the chunk sequence of splitChunksAux restores the text. -/
theorem reassemble_splitChunksAux (size overlap : Nat) (hov : overlap < size) :
    ∀ (fuel : Nat) (s : List Char), s.length ≤ fuel →
      reassemble overlap (splitChunksAux size overlap fuel s) = s := by
  intro fuel
  induction fuel with
  | zero =>
    intro s hs
    simp [splitChunksAux, reassemble]
  | succ n ih =>
    intro s hs
    rw [splitChunksAux]
    split
    · simp [reassemble]
    · split
      · omega
      · rename_i hlen hstep
        have hrec : joinDrops overlap
            (splitChunksAux size overlap n (s.drop (size - overlap))) =
            (s.drop (size - overlap)).drop overlap :=
          joinDrops_splitChunksAux size overlap hov n (s.drop (size - overlap))
            (by simp only [List.length_drop]; omega)
        simp only [reassemble]
        rw [show ((splitChunksAux size overlap n (s.drop (size - overlap))).map
              (List.drop overlap)).flatten =
            joinDrops overlap (splitChunksAux size overlap n (s.drop (size - overlap)))
          from rfl]
        rw [hrec, List.drop_drop]
        have h1 : size - overlap + overlap = size := by omega
        rw [h1, List.take_append_drop]

/-- C10: for every document text and every configuration with
overlap < size, every chunk the splitter produces has length at most size,
and concatenating the chunks while dropping the overlapping prefix of every
chunk after the first reconstructs the original text exactly.  (The splitter
is a pure function of the text and the configuration, so the sequence is
deterministic by construction.) -/
theorem splitChunks_bounds_and_reconstructs (size overlap : Nat) (s : List Char)
    (hov : overlap < size) :
    (∀ c ∈ splitChunks size overlap s, c.length ≤ size) ∧
    reassemble overlap (splitChunks size overlap s) = s :=
  ⟨splitChunksAux_length_le size overlap hov s.length s (Nat.le_refl _),
   reassemble_splitChunksAux size overlap hov s.length s (Nat.le_refl _)⟩

/-- Witness for C10: the 6-character text split with size 5, overlap 1
reassembles exactly, and its concrete chunks are within bounds. -/
theorem splitChunks_bounds_and_reconstructs_witness :
    reassemble 1 (splitChunks 5 1 "hello!".toList) = "hello!".toList ∧
    splitChunks 5 1 "hello!".toList = ["hello".toList, "o!".toList] :=
  ⟨(splitChunks_bounds_and_reconstructs 5 1 "hello!".toList (by decide)).2,
   by decide⟩

/-- C1: evaluating the embedded pipeline at the failing input.  Against an
initially fresh store, the first local ingestion run stores 2 chunks; the
second run in the same process finds the store existing and excludes the
already-ingested source, so its load schedules nothing new, yet
DocumentLoader.process re-splits the stale class-level `documents` list left
behind by the first run, and the second run returns True after add_documents
duplicates the 2 chunks (4 records in the store), instead of reporting the
NoNewDocuments no-op with the count unchanged. -/
theorem reingest_second_run_duplicates :
    store1demo.length = 2 ∧
    run2demo = Except.ok
      { returned := true,
        cls := cls1demo,
        storeAfter := some (store1demo ++ store1demo),
        exclusion := ["a.txt", "a.txt"],
        ops := [StoreOp.openExisting, StoreOp.getMetadata,
                StoreOp.addDocuments store1demo, StoreOp.persist] } := by
  constructor
  · rfl
  · rfl

/-- C2 counterexample: the first DocumentLoader instance loads and processes
one document into 2 chunks, assigned by `process` to an instance attribute;
a second, freshly constructed instance reads the class attribute instead,
which is still empty, so the first instance's chunks are not present in the
second instance's processed_texts, contrary to the claim. -/
theorem processed_texts_not_shared :
    inst1demoAfter.processedTexts clsLoadedDemo =
      [⟨"a.txt", "hello".toList⟩, ⟨"a.txt", "o!".toList⟩] ∧
    inst2demo.processedTexts clsLoadedDemo = [] := by
  constructor
  · rfl
  · rfl

/-- C2 amended: `documents` is class-level shared state — documents appended
via load by a first instance are visible through a second, freshly
constructed instance, which therefore does not start from an empty document
list.  `processed_texts`, though declared as a class attribute, is rebound by
`process` to an instance attribute: the first instance sees its chunks, while
a fresh instance still reads the untouched class-level value. -/
theorem loader_class_state_sharing
    (cls : LoaderClass) (ign1 ign2 : List String) (settings : Settings)
    (files : List FileEntry) (inst1' : LoaderInstance)
    (hproc : DocumentLoader.process
        (DocumentLoader.load cls (DocumentLoader.init ign1 settings) files)
        (DocumentLoader.init ign1 settings) = .ok inst1') :
    (∀ f, f ∈ discoverFiles files → ign1.contains f.path = false →
      toDoc f ∈ (DocumentLoader.init ign2 settings).documentsView
        (DocumentLoader.load cls (DocumentLoader.init ign1 settings) files)) ∧
    inst1'.processedTexts
        (DocumentLoader.load cls (DocumentLoader.init ign1 settings) files) =
      splitDocuments settings.textsplitter.size settings.textsplitter.overlap
        (DocumentLoader.load cls (DocumentLoader.init ign1 settings) files).documents ∧
    (DocumentLoader.init ign2 settings).processedTexts
        (DocumentLoader.load cls (DocumentLoader.init ign1 settings) files) =
      cls.processed_texts := by
  refine ⟨?_, ?_, ?_⟩
  · intro f hf hig
    simp only [LoaderInstance.documentsView, DocumentLoader.load, List.mem_append]
    right
    refine List.mem_map_of_mem toDoc ?_
    simp only [List.mem_filter, DocumentLoader.init]
    exact ⟨hf, by simpa using hig⟩
  · unfold DocumentLoader.process at hproc
    split at hproc
    · exact absurd hproc (by simp)
    · cases hproc
      rfl
  · rfl

/-- Witness for C2's amended theorem: with an empty class state, the document
the first instance loaded from demoDir is visible through a fresh second
instance, the first instance's processed_texts holds its own chunks, and the
fresh second instance's processed_texts is the untouched empty class
value. -/
theorem loader_class_state_sharing_witness :
    toDoc ⟨"a.txt", "hello!".toList⟩ ∈
      (DocumentLoader.init [] demoSettings).documentsView clsLoadedDemo ∧
    (DocumentLoader.init [] demoSettings).processedTexts clsLoadedDemo =
      LoaderClass.processed_texts ⟨[], []⟩ :=
  ⟨(loader_class_state_sharing ⟨[], []⟩ [] [] demoSettings demoDir inst1demoAfter
      (by rfl)).1 ⟨"a.txt", "hello!".toList⟩ (by decide) (by decide),
   (loader_class_state_sharing ⟨[], []⟩ [] [] demoSettings demoDir inst1demoAfter
      (by rfl)).2.2⟩

/-- C3: for every run, when the gather raises NoNewDocumentsLoadedError the
ingest returns false, persist is never invoked and no add or create call is
made with new content; when the gather succeeds, ingest returns true,
persist is invoked exactly once as the last store call, after exactly one
content-writing call (add_documents in append mode, Chroma.from_documents
in fresh mode). -/
theorem ingest_persist_policy
    (gather : Option (List String) → LoaderClass → LoaderClass × Except GErr (List Document))
    (cls cls' : LoaderClass) (storeExists : Bool) (diskRecords : List Document)
    (res : Except GErr (List Document))
    (hcall : gather (if storeExists then some (diskRecords.map Document.source) else none) cls
      = (cls', res)) :
    (res = .error .noNewDocs →
      ∃ r : RunResult,
        WorkerBase.ingest gather cls storeExists diskRecords = .ok r ∧
        r.returned = false ∧
        StoreOp.persist ∉ r.ops ∧
        r.ops.countP StoreOp.writesContent = 0) ∧
    (∀ texts, res = .ok texts →
      ∃ r : RunResult,
        WorkerBase.ingest gather cls storeExists diskRecords = .ok r ∧
        r.returned = true ∧
        r.ops.count StoreOp.persist = 1 ∧
        r.ops.countP StoreOp.writesContent = 1 ∧
        r.ops.getLast? = some StoreOp.persist) := by
  cases storeExists with
  | false =>
    simp only [if_neg Bool.false_ne_true] at hcall
    constructor
    · intro hres
      subst hres
      refine ⟨⟨false, cls', none, [], []⟩, ?_, rfl, ?_, rfl⟩
      · simp [WorkerBase.ingest, hcall]
      · simp
    · intro texts hres
      subst hres
      refine ⟨⟨true, cls', some texts, [], [.createFrom texts, .persist]⟩, ?_, rfl, ?_, ?_, ?_⟩
      · simp [WorkerBase.ingest, hcall]
      · rfl
      · rfl
      · rfl
  | true =>
    simp only [if_true] at hcall
    constructor
    · intro hres
      subst hres
      refine ⟨⟨false, cls', some diskRecords, diskRecords.map Document.source,
        [.openExisting, .getMetadata]⟩, ?_, rfl, ?_, rfl⟩
      · simp [WorkerBase.ingest, hcall]
      · simp
    · intro texts hres
      subst hres
      refine ⟨⟨true, cls', some (diskRecords ++ texts), diskRecords.map Document.source,
        [.openExisting, .getMetadata, .addDocuments texts, .persist]⟩, ?_, rfl, ?_, ?_, ?_⟩
      · simp [WorkerBase.ingest, hcall]
      · rfl
      · rfl
      · rfl

/-- Witness for C3: a gather reporting no new documents makes the run a
no-op without store writes, and a gather returning one chunk makes the run
persist once after one content write. -/
theorem ingest_persist_policy_witness :
    (∃ r : RunResult,
      WorkerBase.ingest (fun _ c => (c, .error .noNewDocs)) ⟨[], []⟩ false [] = .ok r ∧
      r.returned = false ∧
      StoreOp.persist ∉ r.ops ∧
      r.ops.countP StoreOp.writesContent = 0) ∧
    (∃ r : RunResult,
      WorkerBase.ingest (fun _ c => (c, .ok [⟨"b.txt", "hi".toList⟩])) ⟨[], []⟩ false [] = .ok r ∧
      r.returned = true ∧
      r.ops.count StoreOp.persist = 1 ∧
      r.ops.countP StoreOp.writesContent = 1 ∧
      r.ops.getLast? = some StoreOp.persist) :=
  ⟨(ingest_persist_policy (fun _ c => (c, .error .noNewDocs)) ⟨[], []⟩ ⟨[], []⟩
      false [] (.error .noNewDocs) rfl).1 rfl,
   (ingest_persist_policy (fun _ c => (c, .ok [⟨"b.txt", "hi".toList⟩])) ⟨[], []⟩ ⟨[], []⟩
      false [] (.ok [⟨"b.txt", "hi".toList⟩]) rfl).2 [⟨"b.txt", "hi".toList⟩] rfl⟩

/-- C4: the store-existence check returns true exactly when the index path
is a directory, the collections file and the embeddings file exist, and at
least three index artifact files match the bin and pickle patterns; when the
check fails the run proceeds in create-fresh mode — the gather receives no
collection, the recorded exclusion set is empty and no add_documents call is
made (the store, if any content results, is created from documents). -/
theorem vectorstore_existence_check (fs : FileSystem) (cfg : ChromaConfig) :
    (does_vectorstore_exist fs cfg = true ↔
      (fs.isDir (joinPath cfg.persist_directory cfg.index) = true ∧
       fs.isFile (joinPath cfg.persist_directory cfg.collections) = true ∧
       fs.isFile (joinPath cfg.persist_directory cfg.embeddings) = true ∧
       3 ≤ (get_files fs (joinPath cfg.persist_directory cfg.index)
              [cfg.bin, cfg.pickle]).length)) ∧
    (does_vectorstore_exist fs cfg = false →
      ∀ gather cls diskRecords,
        WorkerBase.run fs cfg gather cls diskRecords =
          WorkerBase.ingest gather cls false diskRecords ∧
        ∀ r : RunResult, WorkerBase.run fs cfg gather cls diskRecords = .ok r →
          r.exclusion = [] ∧ ∀ texts, StoreOp.addDocuments texts ∉ r.ops) := by
  constructor
  · simp only [does_vectorstore_exist, Bool.and_eq_true, decide_eq_true_eq]
    tauto
  · intro hfalse gather cls diskRecords
    have hrun : WorkerBase.run fs cfg gather cls diskRecords =
        WorkerBase.ingest gather cls false diskRecords := by
      unfold WorkerBase.run
      rw [hfalse]
    refine ⟨hrun, ?_⟩
    intro r hr
    rw [hrun] at hr
    unfold WorkerBase.ingest at hr
    simp only [Bool.false_eq_true, if_neg] at hr
    rcases hg : gather none cls with ⟨cls', res⟩
    rw [hg] at hr
    match res with
    | .error .noNewDocs =>
      simp only at hr
      cases hr
      exact ⟨rfl, by simp⟩
    | .error .fileNotFound =>
      simp only at hr
      cases hr
    | .ok texts =>
      simp only at hr
      cases hr
      refine ⟨rfl, ?_⟩
      intro texts2
      simp

/-- Witness for C4: on an empty filesystem the check fails (the index path is
not a directory), and a run over it proceeds fresh: empty exclusion set and
no add_documents call. -/
theorem vectorstore_existence_check_witness :
    (does_vectorstore_exist demoFs demoCfg = false →
      ∀ gather cls diskRecords,
        WorkerBase.run demoFs demoCfg gather cls diskRecords =
          WorkerBase.ingest gather cls false diskRecords ∧
        ∀ r : RunResult, WorkerBase.run demoFs demoCfg gather cls diskRecords = .ok r →
          r.exclusion = [] ∧ ∀ texts, StoreOp.addDocuments texts ∉ r.ops) ∧
    does_vectorstore_exist demoFs demoCfg = false :=
  ⟨(vectorstore_existence_check demoFs demoCfg).2, rfl⟩

/-- C5: load schedules parsing for exactly the discovered files (files of the
directory with a supported extension) whose path is not in the exclusion
set — the appended documents are precisely the parses of those files, in
discovery order; consequently, when the loader state starts empty, every
chunk the processed documents yield carries the source of a discovered,
non-excluded file (with a store already holding a.txt, a directory with
a.txt and b.txt yields chunks only from b.txt). -/
theorem load_dedup_boundary (cls : LoaderClass) (inst : LoaderInstance)
    (files : List FileEntry) :
    (DocumentLoader.load cls inst files).documents =
      cls.documents ++
        ((discoverFiles files).filter
          (fun f => !inst.ignored_files.contains f.path)).map toDoc ∧
    (cls.documents = [] →
      ∀ size overlap d,
        d ∈ splitDocuments size overlap (DocumentLoader.load cls inst files).documents →
        ∃ f, f ∈ discoverFiles files ∧ inst.ignored_files.contains f.path = false ∧
          d.source = f.path) := by
  refine ⟨rfl, ?_⟩
  intro hnil size overlap d hd
  simp only [DocumentLoader.load, hnil, List.nil_append] at hd
  simp only [splitDocuments, List.mem_flatMap, List.mem_map] at hd
  obtain ⟨parent, ⟨f, hf, hfd⟩, t, ht, hdt⟩ := hd
  obtain ⟨hfmem, hfpred⟩ := List.mem_filter.mp hf
  refine ⟨f, hfmem, ?_, ?_⟩
  · simpa using hfpred
  · rw [← hdt, ← hfd]
    rfl

/-- Witness for C5: with the store already holding a.txt, the run over the
directory with a.txt and b.txt produces a chunk whose source is b.txt, and
that chunk's provenance is a discovered, non-excluded file. -/
theorem load_dedup_boundary_witness :
    ∃ f, f ∈ discoverFiles demoDirAB ∧ ["a.txt"].contains f.path = false ∧
      Document.source ⟨"b.txt", "world".toList⟩ = f.path :=
  (load_dedup_boundary ⟨[], []⟩ (DocumentLoader.init ["a.txt"] demoSettings) demoDirAB).2
    rfl 5 1 ⟨"b.txt", "world".toList⟩ (by decide)

/-- C6 counterexample: a download task whose fetch hits a transport error
makes _download_single_file raise ValueError, which future.result()
re-raises: the run aborts instead of logging and skipping the file, contrary
to the claim that a transport error never aborts the run. -/
theorem transport_error_aborts_download :
    downloadAll demoTasksErr = .error "Error loading URL: connection refused" := by
  rfl

/-- C6 amended: a non-2xx HTTP response (any status at least 400, for which
requests reports r.ok false) is handled per-file by logging and skipping that
file and never aborts the run: whenever no task hits a transport error, the
download completes and stages exactly the bodies of the r.ok responses.  A
transport error, by contrast, raises a ValueError that propagates out of the
download and aborts the run. -/
theorem download_skips_failed_responses (tasks : List (FetchResult × String))
    (hnet : ∀ t ∈ tasks, t.1.isTransportError = false) :
    downloadAll tasks = .ok (stagedFiles tasks) := by
  induction tasks with
  | nil => rfl
  | cons t rest ih =>
    have hrest : awaitAll (rest.map fun t => downloadSingleFile t.1 t.2) =
        .ok (stagedFiles rest) := by
      have hr := ih fun t' ht' => hnet t' (List.mem_cons_of_mem t ht')
      simpa [downloadAll] using hr
    have ht : t.1.isTransportError = false := hnet t (List.mem_cons_self t rest)
    obtain ⟨fetch, name⟩ := t
    cases fetch with
    | transportError m => simp [FetchResult.isTransportError] at ht
    | response status body =>
      simp only [downloadAll, List.map_cons]
      by_cases hok : responseOk status = true
      · rw [show downloadSingleFile (FetchResult.response status body) name =
            Except.ok (some ⟨name, body⟩) from by simp [downloadSingleFile, hok]]
        simp only [awaitAll]
        rw [hrest]
        simp [stagedFiles, List.filterMap_cons, hok]
      · simp only [Bool.not_eq_true] at hok
        rw [show downloadSingleFile (FetchResult.response status body) name =
            Except.ok none from by simp [downloadSingleFile, hok]]
        simp only [awaitAll]
        rw [hrest]
        simp [stagedFiles, List.filterMap_cons, hok]

/-- Witness for C6's amended theorem: three direct URLs, one answering
HTTP 500 — the run completes and stages the two successful files. -/
theorem download_skips_failed_responses_witness :
    downloadAll demoTasks500 =
      .ok [⟨"f1.txt", "aa".toList⟩, ⟨"f3.txt", "bb".toList⟩] :=
  Trans.trans (download_skips_failed_responses demoTasks500 (by decide)) (by rfl)

/-- C7: url_direct_download runs one UrlWorker ingest per configured link
(one outcome per link) and reports the success message exactly when every
per-link pass succeeded; any per-link no-op degrades the message to the
failure text, and a no-op for one link does not prevent the remaining links
from being processed (every link's outcome enters the fold). -/
theorem url_direct_download_aggregates (links : List String)
    (ingestOf : String → Bool) (hne : links ≠ []) :
    (url_direct_download (links.map ingestOf) =
        "Automated download and import was successful" ↔
      ∀ l ∈ links, ingestOf l = true) ∧
    ((∃ l ∈ links, ingestOf l = false) →
      url_direct_download (links.map ingestOf) =
        "A file was not imported from an URL") ∧
    (links.map ingestOf).length = links.length := by
  have hfold : ∀ (outcomes : List Bool) (b : Bool),
      outcomes.foldl (fun success r => success && r) b = (b && outcomes.all id) := by
    intro outcomes
    induction outcomes with
    | nil => intro b; simp
    | cons x xs ih =>
      intro b
      simp only [List.foldl_cons, List.all_cons, ih, id]
      rw [Bool.and_assoc]
  have hmsg : url_direct_download (links.map ingestOf) =
      (if (links.map ingestOf).all id then "Automated download and import was successful"
       else "A file was not imported from an URL") := by
    simp only [url_direct_download, hfold, Bool.true_and]
  constructor
  · rw [hmsg]
    constructor
    · intro hsucc l hl
      by_cases hall : ((links.map ingestOf).all id) = true
      · have := List.all_eq_true.mp hall (ingestOf l) (List.mem_map_of_mem ingestOf hl)
        simpa using this
      · rw [if_neg (by simpa using hall)] at hsucc
        exact absurd hsucc (by decide)
    · intro hall
      have : ((links.map ingestOf).all id) = true := by
        refine List.all_eq_true.mpr ?_
        intro b hb
        obtain ⟨l, hl, hbl⟩ := List.mem_map.mp hb
        simp [← hbl, hall l hl]
      rw [if_pos this]
  · constructor
    · intro ⟨l, hl, hfail⟩
      rw [hmsg]
      have : ((links.map ingestOf).all id) = false := by
        refine List.all_eq_false.mpr ?_
        exact ⟨ingestOf l, List.mem_map_of_mem ingestOf hl, by simp [hfail]⟩
      rw [this]
      simp
    · exact links.length_map ingestOf

/-- Witness for C7: two links, the second ingest a no-op — the aggregate
message is the failure text, both links were processed, and the success
message would require both outcomes true. -/
theorem url_direct_download_aggregates_witness :
    ((url_direct_download (["u1", "u2"].map fun l => l == "u1") =
        "Automated download and import was successful" ↔
      ∀ l ∈ ["u1", "u2"], (l == "u1") = true) ∧
    ((∃ l ∈ ["u1", "u2"], (l == "u1") = false) →
      url_direct_download (["u1", "u2"].map fun l => l == "u1") =
        "A file was not imported from an URL") ∧
    (["u1", "u2"].map fun l => l == "u1").length = ["u1", "u2"].length) :=
  url_direct_download_aggregates ["u1", "u2"] (fun l => l == "u1") (by decide)

/-- C8: the dispatcher invokes the matching coordinator exactly when the
requested kind is one of local, web, url — returning that coordinator's
user-facing status string — and raises InvalidOperationKeyError for every
other string. -/
theorem perform_operation_validates_kind (webOk localOk : Bool)
    (urlOutcomes : List Bool) (key : String) :
    (Operation.perform_operation webOk localOk urlOutcomes key =
      match OperationsEnum.ofString key with
      | some k => .ok (Operation.operations webOk localOk urlOutcomes k)
      | none => .error .invalidOperationKey) ∧
    ((OperationsEnum.ofString key).isSome = true ↔
      (key = "local" ∨ key = "web" ∨ key = "url")) := by
  constructor
  · unfold Operation.perform_operation MetaEnum.contains
    rcases h : OperationsEnum.ofString key with _ | k
    · simp [h]
    · simp [h]
  · by_cases h1 : key = "web" <;> by_cases h2 : key = "local" <;>
      by_cases h3 : key = "url" <;> simp_all [OperationsEnum.ofString]

/-- lookupEntry on a cons cell: the head when its key matches, the lookup in
the tail otherwise. -/
theorem lookupEntry_cons (k k' : String) (x : Value) (l : List (String × Value)) :
    lookupEntry k ((k', x) :: l) = if k' == k then some x else lookupEntry k l := by
  by_cases h : (k' == k) = true
  · simp [lookupEntry, List.find?_cons_of_pos, h]
  · rw [if_neg (by simpa using h)]
    unfold lookupEntry
    rw [List.find?_cons_of_neg]
    simpa using h

/-- lookupEntry distributes over append: the left list is consulted first. -/
theorem lookupEntry_append (k : String) (l r : List (String × Value)) :
    lookupEntry k (l ++ r) =
      match lookupEntry k l with
      | some v => some v
      | none => lookupEntry k r := by
  induction l with
  | nil => simp [lookupEntry]
  | cons e rest ih =>
    obtain ⟨k', x⟩ := e
    rw [List.cons_append, lookupEntry_cons, lookupEntry_cons]
    by_cases h : (k' == k) = true
    · simp [h]
    · simp [h, ih]

/-- Looking a key up among the entries of b whose key is absent from a: the
lookup in b when the key is absent from a, nothing otherwise (the filter
predicate depends only on the entry's key). -/
theorem lookupEntry_filter_new (a b : List (String × Value)) (k : String) :
    lookupEntry k (b.filter fun e => (lookupEntry e.1 a).isNone) =
      if (lookupEntry k a).isNone then lookupEntry k b else none := by
  induction b with
  | nil =>
    simp only [List.filter_nil]
    split <;> simp [lookupEntry]
  | cons e rest ih =>
    obtain ⟨k', x⟩ := e
    by_cases heq : k' = k
    · subst heq
      by_cases hkeep : ((lookupEntry k' a).isNone : Bool) = true
      · simp [List.filter_cons, hkeep, lookupEntry_cons, ih]
      · simp [List.filter_cons, hkeep, lookupEntry_cons, ih]
    · by_cases hkeep : ((lookupEntry k' a).isNone : Bool) = true
      · simp [List.filter_cons, hkeep, lookupEntry_cons, heq, ih]
      · simp [List.filter_cons, hkeep, lookupEntry_cons, heq, ih]

/-- mergeEntries on the empty first mapping. -/
theorem mergeEntries_nil (b : List (String × Value)) : mergeEntries [] b = [] := by
  rw [mergeEntries]

/-- mergeEntries on a cons cell: the head's value is merged with the value b
holds for the same key, if any. -/
theorem mergeEntries_cons (k : String) (v : Value)
    (rest b : List (String × Value)) :
    mergeEntries ((k, v) :: rest) b =
      (k, match lookupEntry k b with
          | some w => mergeValue v w
          | none => v) :: mergeEntries rest b := by
  rw [mergeEntries]
  rcases hb : lookupEntry k b with _ | w <;> simp [hb]

/-- mergeValue on two mappings. -/
theorem mergeValue_dict_dict (a b : List (String × Value)) :
    mergeValue (.dict a) (.dict b) =
      .dict (mergeEntries a b ++ (b.filter fun e => (lookupEntry e.1 a).isNone)) := by
  rw [mergeValue]

/-- Merging a mapping into the fresh empty dict returns its entries. -/
theorem mergeValue_empty_left (a : List (String × Value)) :
    mergeValue emptyDict (.dict a) = .dict a := by
  rw [emptyDict, mergeValue_dict_dict, mergeEntries_nil, List.nil_append]
  congr 1
  have : ∀ e : String × Value, ((lookupEntry e.1 []).isNone : Bool) = true := by
    intro e
    simp [lookupEntry]
  calc a.filter (fun e => (lookupEntry e.1 []).isNone)
      = a.filter (fun _ => true) := List.filter_congr (fun e _ => this e)
    _ = a := List.filter_true a

/-- A key's value among the merged entries of a: a's value, merged with b's
when b also holds the key. -/
theorem lookupEntry_mergeEntries (a b : List (String × Value)) (k : String) :
    lookupEntry k (mergeEntries a b) =
      match lookupEntry k a with
      | some v =>
        some (match lookupEntry k b with
              | some w => mergeValue v w
              | none => v)
      | none => none := by
  induction a with
  | nil => simp [mergeEntries_nil, lookupEntry]
  | cons e rest ih =>
    obtain ⟨k', v'⟩ := e
    by_cases heq : k' = k
    · subst heq
      simp [mergeEntries_cons, lookupEntry_cons]
    · simp [mergeEntries_cons, lookupEntry_cons, heq, ih]

/-- C9: the merged configuration contains every key of both mappings; a key
present in both with b (the user side) holding a scalar gets b's value, and
a key present in both mappings with nested mappings on both sides gets the
two sub-mappings merged recursively by the same rule.  The full lookup
characterization: a-only keys keep a's value, b-only keys get b's value, and
shared keys get mergeValue of the two values, which on two scalars is the
second scalar and on two mappings is the recursive entry merge. -/
theorem merge_deep_merges_user_over_default (a b : List (String × Value))
    (k : String) (x y : String) (da db : List (String × Value)) :
    (merge (.dict a) (.dict b) =
      .dict (mergeEntries a b ++ (b.filter fun e => (lookupEntry e.1 a).isNone))) ∧
    (lookupEntry k (mergeEntries a b ++ (b.filter fun e => (lookupEntry e.1 a).isNone)) =
      match lookupEntry k a, lookupEntry k b with
      | some v, some w => some (mergeValue v w)
      | some v, none => some v
      | none, some w => some w
      | none, none => none) ∧
    ((lookupEntry k (mergeEntries a b ++ (b.filter fun e => (lookupEntry e.1 a).isNone))).isSome =
      ((lookupEntry k a).isSome || (lookupEntry k b).isSome)) ∧
    mergeValue (.scalar x) (.scalar y) = .scalar y ∧
    mergeValue (.dict da) (.dict db) =
      .dict (mergeEntries da db ++ (db.filter fun e => (lookupEntry e.1 da).isNone)) := by
  have hchar : lookupEntry k (mergeEntries a b ++ (b.filter fun e => (lookupEntry e.1 a).isNone)) =
      match lookupEntry k a, lookupEntry k b with
      | some v, some w => some (mergeValue v w)
      | some v, none => some v
      | none, some w => some w
      | none, none => none := by
    rw [lookupEntry_append, lookupEntry_mergeEntries, lookupEntry_filter_new]
    rcases ha : lookupEntry k a with _ | v <;> rcases hb : lookupEntry k b with _ | w <;> simp
  refine ⟨?_, hchar, ?_, ?_, mergeValue_dict_dict da db⟩
  · rw [merge, mergeValue_empty_left, mergeValue_dict_dict]
  · rw [hchar]
    rcases ha : lookupEntry k a with _ | v <;> rcases hb : lookupEntry k b with _ | w <;> simp
  · rw [mergeValue] <;> intros <;> simp_all
